import Mathlib

/-!
# Verification of the Orcha scheduling and lifecycle engine

A shallow embedding, in Lean 4, of the parts of the Orcha job orchestrator
that its specification talks about, together with theorems settling the
specification's claims against the code.

Sources embedded here:
* `src/orcha/ext/petition.py` — `PetitionState`, `VALID_TRANSITIONS`, the
  `Petition.state` setter, `Petition.__eq__` / `__lt__`,
  `SignalingPetition.terminate`.
* `src/orcha/lib/processor.py` — the Intake step (`_process_message`,
  `_prepare_petition`), the Admission step (`_grab_petitions`,
  `_handle_petitions`, `_do_start`, `_internal_process` round), and the
  cancellation task (`_finish`).
* `src/orcha/lib/orcha.py` — `_add_message`, `_finish_message`.

Python exceptions are modelled as `Except` results; user code invoked by the
engine (conversion hooks, admission conditions, `on_start`) is modelled by
explicit outcome parameters, since the engine only branches on whether that
code returned or which exception it raised.
-/

namespace OrchaSpec

/-! ## Petition state machine (`src/orcha/ext/petition.py`) -/

/-- The `PetitionState` enumeration (`petition.py`, lines 47-77). -/
inductive PetitionState
  | PENDING
  | ENQUEUED
  | RUNNING
  | FINISHED
  | CANCELLED
  | BROKEN
  | DONE
deriving DecidableEq, Repr, Fintype

/-- Python exception classes raised by the embedded code. -/
inductive PyError
  | invalidState
  | valueError
  | runtimeError
  | attributeError
  | managerShutdown
deriving DecidableEq, Repr

/-- Decidable equality of `Except` results, used to evaluate the theorems on
concrete inputs. -/
instance {ε α : Type} [DecidableEq ε] [DecidableEq α] :
    DecidableEq (Except ε α) := fun x y =>
  match x, y with
  | .ok a, .ok b =>
    if h : a = b then .isTrue (by rw [h])
    else .isFalse (fun hh => h (Except.ok.injEq a b ▸ hh))
  | .ok _, .error _ => .isFalse (fun hh => Except.noConfusion hh)
  | .error _, .ok _ => .isFalse (fun hh => Except.noConfusion hh)
  | .error e, .error f =>
    if h : e = f then .isTrue (by rw [h])
    else .isFalse (fun hh => h (Except.error.injEq e f ▸ hh))

/-- `STOPPED_STATES` (`petition.py`, lines 125-129). -/
def STOPPED_STATES : List PetitionState :=
  [.PENDING, .FINISHED, .BROKEN]

/-- `RUNNING_STATES` (`petition.py`, lines 136-139). -/
def RUNNING_STATES : List PetitionState :=
  [.RUNNING, .ENQUEUED]

/-- `BROKEN_STATES` (`petition.py`, lines 146-148). -/
def BROKEN_STATES : List PetitionState :=
  [.BROKEN]

/-- `VALID_TRANSITIONS` (`petition.py`, lines 155-163). -/
def VALID_TRANSITIONS : PetitionState → List PetitionState
  | .PENDING => [.BROKEN, .ENQUEUED]
  | .ENQUEUED => [.BROKEN, .CANCELLED, .RUNNING]
  | .RUNNING => [.BROKEN, .CANCELLED, .FINISHED]
  | .FINISHED => [.BROKEN, .DONE]
  | .CANCELLED => [.BROKEN, .DONE]
  | .DONE => []
  | .BROKEN => []

/-- `PetitionState.is_stopped` (`petition.py`, lines 104-107). -/
def PetitionState.isStopped (s : PetitionState) : Bool :=
  decide (s ∈ STOPPED_STATES)

/-- `PetitionState.is_in_running_state` (`petition.py`, lines 109-112). -/
def PetitionState.isInRunningState (s : PetitionState) : Bool :=
  decide (s ∈ RUNNING_STATES)

/-- `PetitionState.is_in_broken_state` (`petition.py`, lines 114-117). -/
def PetitionState.isInBrokenState (s : PetitionState) : Bool :=
  decide (s ∈ BROKEN_STATES)

/-- `PetitionState.is_enqueued` (`petition.py`, lines 79-82). -/
def PetitionState.isEnqueuedState (s : PetitionState) : Bool :=
  decide (s = .ENQUEUED)

/-- The `Petition.state` setter (`petition.py`, lines 272-288): the assignment
raises `InvalidStateError` when the new state differs from the current one and
is not listed in `VALID_TRANSITIONS[current]`; otherwise the field is updated
(in particular, re-assigning the current state succeeds). -/
def setState (cur next : PetitionState) : Except PyError PetitionState :=
  if next ≠ cur ∧ next ∉ VALID_TRANSITIONS cur then
    Except.error PyError.invalidState
  else
    Except.ok next

/-- The state the petition holds after an attempted assignment: the new state
when the setter succeeded, the unchanged current state when it raised. -/
def trySetState (cur next : PetitionState) : PetitionState :=
  match setState cur next with
  | Except.ok s => s
  | Except.error _ => cur

/-! ## Petition ordering and equality (`src/orcha/ext/petition.py`) -/

/-- Petition identifiers are `int | str` in the source; comparison stringifies
them (`Petition.__eq__`, lines 395-410). Priorities are numeric; only their
order matters to the embedded code, so they are modelled as integers. -/
structure Petition where
  priority : Int
  id : Int ⊕ String
deriving DecidableEq, Repr

/-- Stringification of an `int | str` identifier as performed by
`Petition.__eq__` before comparing. -/
def idStr : Int ⊕ String → String
  | .inl n => toString n
  | .inr s => s

/-- `Petition.__eq__` (`petition.py`, lines 395-410): equality holds exactly
when the stringified identifiers coincide. -/
def Petition.pyEq (a b : Petition) : Bool :=
  decide (idStr a.id = idStr b.id)

/-- `Petition.__lt__` (`petition.py`, lines 412-417): comparison is on the
priorities alone. -/
def Petition.pyLt (a b : Petition) : Bool :=
  decide (a.priority < b.priority)

/-! ## `SignalingPetition.terminate` (`src/orcha/ext/petition.py`, 465-494) -/

/-- The errno values distinguished by `SignalingPetition.terminate`; per
`man 2 kill` the only possible values are `EINVAL`, `EPERM` and `ESRCH`, but
the code's final branch catches any other `OSError` as well. -/
inductive Errno
  | EINVAL
  | EPERM
  | ESRCH
  | other
deriving DecidableEq, Repr

/-- Outcome of the `os.kill` / `os.killpg` call: either it returned, or it
raised `OSError` with the given errno. -/
inductive KillResult
  | ok
  | oserror (e : Errno)
deriving DecidableEq, Repr

/-- `SignalingPetition.terminate` (`petition.py`, lines 465-494), with the
stored `pid` and the outcome of the signal delivery as explicit inputs:
* `pid` of `None` or `≤ 0` raises `ValueError`;
* a delivery failing with `EINVAL` raises `ValueError`;
* a delivery failing with `EPERM` returns `False`;
* every other case (success, `ESRCH`, any other errno) returns `True`. -/
def SignalingPetition.terminate (pid : Option Int) (kill : KillResult) :
    Except PyError Bool :=
  match pid with
  | none => Except.error PyError.valueError
  | some p =>
    if p ≤ 0 then Except.error PyError.valueError
    else
      match kill with
      | .ok => Except.ok true
      | .oserror .EINVAL => Except.error PyError.valueError
      | .oserror .EPERM => Except.ok false
      | .oserror .ESRCH => Except.ok true
      | .oserror .other => Except.ok true

/-- Whether the stored pid passes the guard at `petition.py`, line 478. -/
def validPid : Option Int → Bool
  | none => false
  | some p => decide (0 < p)

/-! ## Submit / cancel entry points (`src/orcha/lib/orcha.py`, 491-508) -/

/-- The server-side state the two entry points touch: the shutdown flag and
the two cross-process queues (`submit` and `cancel-in`), modelled by the lists
of enqueued message identifiers. -/
structure ServerState where
  shutdown : Bool
  submitQueue : List Nat
  finishQueue : List Nat
deriving DecidableEq, Repr

/-- `Orcha._add_message` (`orcha.py`, lines 491-497): enqueue into the submit
queue unless the shutdown flag is set, in which case raise
`ManagerShutdownError` and leave the queues untouched. The result pairs the
raised exception (if any) with the state after the call. -/
def add_message (s : ServerState) (m : Nat) : Option PyError × ServerState :=
  if !s.shutdown then
    (none, { s with submitQueue := s.submitQueue ++ [m] })
  else
    (some PyError.managerShutdown, s)

/-- `Orcha._finish_message` (`orcha.py`, lines 499-508): enqueue into the
cancel queue unless the shutdown flag is set, in which case raise
`ManagerShutdownError` and leave the queues untouched. -/
def finish_message (s : ServerState) (m : Nat) : Option PyError × ServerState :=
  if !s.shutdown then
    (none, { s with finishQueue := s.finishQueue ++ [m] })
  else
    (some PyError.managerShutdown, s)

/-! ## Association-list maps

`Processor._petitions` and `Processor._seen_petitions` are Python dicts
(the latter a `defaultdict` with default `0`); they are modelled as
association lists with unique keys kept by construction. -/

/-- Dictionary lookup. -/
def assocLookup {α : Type} : List (Nat × α) → Nat → Option α
  | [], _ => none
  | kv :: rest, k => if kv.1 = k then some kv.2 else assocLookup rest k

/-- Dictionary assignment `d[k] = v`: replaces the value when the key is
present, appends otherwise. -/
def assocSet {α : Type} : List (Nat × α) → Nat → α → List (Nat × α)
  | [], k, v => [(k, v)]
  | kv :: rest, k, v =>
    if kv.1 = k then (k, v) :: rest else kv :: assocSet rest k v

/-- Dictionary removal `d.pop(k, None)`. -/
def assocPop {α : Type} : List (Nat × α) → Nat → List (Nat × α)
  | [], _ => []
  | kv :: rest, k =>
    if kv.1 = k then assocPop rest k else kv :: assocPop rest k

/-- Whether a key is present. -/
def assocContains {α : Type} (l : List (Nat × α)) (k : Nat) : Bool :=
  decide (k ∈ l.map Prod.fst)

/-- Lookup in `Processor._seen_petitions` (a `defaultdict` defaulting to 0). -/
def seenGet (l : List (Nat × Nat)) (k : Nat) : Nat :=
  (assocLookup l k).getD 0

/-- `set.add`: appends the element unless it is already present. -/
def setAdd (l : List Nat) (x : Nat) : List Nat :=
  if x ∈ l then l else l ++ [x]

/-- `set.discard`: removes the element if present. -/
def setDiscard : List Nat → Nat → List Nat
  | [], _ => []
  | y :: rest, x =>
    if y = x then setDiscard rest x else y :: setDiscard rest x

/-! ## The Admission worker (`src/orcha/lib/processor.py`) -/

/-- A petition as seen by the scheduler: its identifier, whether it is the
`EmptyPetition` poison pill, and its state. The `EmptyPetition` carries the
reserved identifier `__empty__`; identifiers are abstracted to naturals and
`empty` marks the `isinstance(petition, EmptyPetition)` test. -/
structure Pet where
  id : Nat
  empty : Bool
  state : PetitionState
deriving DecidableEq, Repr

/-- Outcome of evaluating `self.orcha.check(petition)` (`orcha.py`, lines
574-581: the manager condition plus the `on_petition_check` hook chain run with
`do_raise=True`): the call returned a boolean, raised `ConditionFailed`, or
raised some other exception. `_handle_petitions` (`processor.py`, lines
484-486) discards the returned boolean — after a plain return it sets
`ready = True` whatever the value was. -/
inductive CheckOutcome
  | ok (ret : Bool)
  | condFailed
  | exc
deriving DecidableEq, Repr

/-- The `-1` / petition-id / `__empty__` values taken by `last_id` in
`_handle_petitions` (`processor.py`, lines 475-501). -/
inductive LastId
  | start
  | pet (id : Nat)
  | empty
deriving DecidableEq, Repr

/-- The mutable state of the `Processor` touched by the Admission worker
(`processor.py`): the effective `look_ahead` (stored on the manager),
`_old_look_ahead`, `_seen_petitions`, `_starving`, the `_internalq` priority
queue (modelled in dequeue order), the `_petitions` map, plus two histories
recorded for the theorems: the ids whose action was submitted to the worker
pool with a completion callback attached (`started`) and the ids for which
`orcha.finish_petition` has been invoked (`finalized`). -/
structure ProcessorState where
  lookAhead : Nat
  oldLookAhead : Nat
  seen : List (Nat × Nat)
  starving : List Nat
  internalq : List Pet
  petitions : List (Nat × Pet)
  started : List Nat
  finalized : List Nat
deriving DecidableEq, Repr

/-- `Processor._do_start` (`processor.py`, lines 449-465). `startOk` is
whether `orcha.start_petition` returned without raising; on an exception the
petition's state is set to `BROKEN` (through the setter) and the no-op action
is submitted instead, but a future with the completion callback is submitted
either way. Afterwards the petition's seen-count entry is dropped, its id is
discarded from `_starving`, and when `_starving` became empty `look_ahead` is
restored from `_old_look_ahead`. On the healthy path `start_petition`
transitions `ENQUEUED → RUNNING` through the setter. -/
def do_start (s : ProcessorState) (p : Pet) (startOk : Bool) : ProcessorState :=
  let p1 : Pet :=
    if startOk then
      if p.state.isEnqueuedState then { p with state := trySetState p.state .RUNNING } else p
    else
      { p with state := trySetState p.state .BROKEN }
  let starving1 := setDiscard s.starving p.id
  let s1 : ProcessorState :=
    { s with petitions := assocSet s.petitions p.id p1,
             started := s.started ++ [p.id],
             seen := assocPop s.seen p.id,
             starving := starving1 }
  if starving1.length = 0 then { s1 with lookAhead := s1.oldLookAhead } else s1

/-- `Processor._handle_petitions` (`processor.py`, lines 472-501): process the
dequeued petitions in order; stop at an `EmptyPetition`; on a plain return of
the check start the petition; on `ConditionFailed` run the observer hook and
collect the petition as unsuccessful when it is still `ENQUEUED`; on any other
exception set its state to `BROKEN` (which also drops it from this round).
Returns the state, the unsuccessful petitions and `last_id`. -/
def handle_petitions (check : Nat → CheckOutcome) (start : Nat → Bool) :
    ProcessorState → List Pet → List Pet → LastId →
    ProcessorState × List Pet × LastId
  | s, [], unsucc, last => (s, unsucc, last)
  | s, p :: rest, unsucc, _last =>
    if p.empty then
      (s, unsucc, LastId.empty)
    else
      match check p.id with
      | .ok _ =>
        handle_petitions check start (do_start s p (start p.id)) rest unsucc (.pet p.id)
      | .condFailed =>
        if p.state.isEnqueuedState then
          handle_petitions check start s rest (unsucc ++ [p]) (.pet p.id)
        else
          handle_petitions check start s rest unsucc (.pet p.id)
      | .exc =>
        let p1 : Pet := { p with state := trySetState p.state .BROKEN }
        handle_petitions check start { s with petitions := assocSet s.petitions p.id p1 }
          rest unsucc (.pet p.id)

/-- The loop of `Processor._grab_petitions` (`processor.py`, lines 503-513)
together with `_pop_petition`: `for i in range(1, look_ahead + 1)` pop the
head of the queue (`None` when it is empty), and break as soon as the counter
exceeds the remaining queue size. `fuel` counts the remaining loop iterations
and starts at `look_ahead`. -/
def grabGo : Nat → Nat → List Pet → List Pet → List Pet × List Pet
  | 0, _, q, acc => (acc, q)
  | fuel + 1, i, q, acc =>
    let popped : Option Pet × List Pet :=
      match q with
      | [] => (none, [])
      | x :: xs => (some x, xs)
    let acc1 := match popped.1 with
      | some x => acc ++ [x]
      | none => acc
    if i > popped.2.length then (acc1, popped.2)
    else grabGo fuel (i + 1) popped.2 acc1

/-- `Processor._grab_petitions` (`processor.py`, lines 503-513): the grabbed
petitions and the remaining queue. -/
def grab_petitions (s : ProcessorState) : List Pet × List Pet :=
  grabGo s.lookAhead 1 s.internalq []

/-- One iteration of the unsuccessful-petition loop of `_internal_process`
(`processor.py`, lines 525-532): increment the petition's seen-count, add it
to `_starving` when the count reached 1000, and put it back on the queue. -/
def requeue_one (s : ProcessorState) (p : Pet) : ProcessorState :=
  let c := seenGet s.seen p.id + 1
  let starving1 := if c ≥ 1000 then setAdd s.starving p.id else s.starving
  { s with seen := assocSet s.seen p.id c,
           starving := starving1,
           internalq := s.internalq ++ [p] }

/-- The starvation clamp of `_internal_process` (`processor.py`, lines
534-537): while `_starving` is non-empty save the current `look_ahead` into
`_old_look_ahead` and force the effective `look_ahead` to 1. -/
def starving_check (s : ProcessorState) : ProcessorState :=
  if s.starving.length > 0 then
    { s with oldLookAhead := s.lookAhead, lookAhead := 1 }
  else s

/-- One iteration of the `while self.running` loop of
`Processor._internal_process` (`processor.py`, lines 515-542): grab up to
`look_ahead` petitions, handle them, re-enqueue the unsuccessful ones with
their seen-counts incremented, then apply the starvation clamp. The
anti-spinning random sleep and the `last_seen_petition` bookkeeping do not
touch the modelled state and are omitted. -/
def internal_round (s : ProcessorState) (check : Nat → CheckOutcome)
    (start : Nat → Bool) : ProcessorState :=
  let g := grab_petitions s
  let h := handle_petitions check start { s with internalq := g.2 } g.1 [] LastId.start
  starving_check (h.2.1.foldl requeue_one h.1)

/-- The unsuccessful-petition list produced by a round, exposed for the
statements about it. -/
def round_unsuccessful (s : ProcessorState) (check : Nat → CheckOutcome)
    (start : Nat → Bool) : List Pet :=
  let g := grab_petitions s
  (handle_petitions check start { s with internalq := g.2 } g.1 [] LastId.start).2.1

/-- The completion callbacks attached in `_do_start`
(`_on_petition_done_callback`, `processor.py`, lines 425-447), run when the
submitted futures complete: each started petition is popped from the
`_petitions` map and routed to the Finalizer (`orcha.finish_petition`). -/
def run_callbacks (s : ProcessorState) : ProcessorState :=
  { s with petitions := s.started.foldl assocPop s.petitions,
           finalized := s.finalized ++ s.started,
           started := [] }

/-! ## The cancellation task (`Processor._finish`, `processor.py`, 594-617) -/

/-- Observable effects of one execution of the cancellation task. -/
structure FinishResult where
  finalState : PetitionState
  terminateCalled : Bool
  errorFrames : Nat
  finalizerInvoked : Bool
  sentinelPushed : Bool
deriving DecidableEq, Repr

/-- `Processor._finish` (`processor.py`, lines 594-617) on a petition whose
state is `st`; `termOk` is the boolean returned by `p.terminate()` and
`hasQueue` whether `p.queue` is not `None`:
* a stopped petition (`PENDING`, `FINISHED`, `BROKEN`) raises `ValueError`;
* a `RUNNING`-ish petition (`ENQUEUED`, `RUNNING`) is transitioned to
  `CANCELLED` through the setter and `terminate()` is invoked; a `False`
  return raises `RuntimeError`;
* any other state (`CANCELLED`, `DONE`) raises `AttributeError`;
* each raised exception is caught and, if the petition has a reply queue, two
  error frames are written;
* the `finally` block always invokes `orcha.finish_petition` and, if the
  petition has a reply queue, pushes the terminal sentinel via `p.finish()`. -/
def finish_task (st : PetitionState) (termOk : Bool) (hasQueue : Bool) :
    FinishResult :=
  if st.isStopped then
    { finalState := st, terminateCalled := false,
      errorFrames := if hasQueue then 2 else 0,
      finalizerInvoked := true, sentinelPushed := hasQueue }
  else if st.isInRunningState then
    let st1 := trySetState st .CANCELLED
    if termOk then
      { finalState := st1, terminateCalled := true, errorFrames := 0,
        finalizerInvoked := true, sentinelPushed := hasQueue }
    else
      { finalState := st1, terminateCalled := true,
        errorFrames := if hasQueue then 2 else 0,
        finalizerInvoked := true, sentinelPushed := hasQueue }
  else
    { finalState := st, terminateCalled := false,
      errorFrames := if hasQueue then 2 else 0,
      finalizerInvoked := true, sentinelPushed := hasQueue }

/-! ## The Intake worker (`src/orcha/lib/processor.py`, 365-402) -/

/-- An entry of the `_petitions` map as Intake sees it: either the
`Placeholder` tombstone or a real petition, with its state. -/
structure Entry where
  placeholder : Bool
  state : PetitionState
deriving DecidableEq, Repr

/-- The `Placeholder` inserted at `processor.py`, line 366
(`src/orcha/lib/petition.py`, lines 37-50): it carries only the id and starts,
like every petition, in state `PENDING`. -/
def placeholderEntry : Entry :=
  { placeholder := true, state := PetitionState.PENDING }

/-- Outcome of `orcha.on_message_preconvert` (the preconvert hook chain
followed by `manager.convert_to_petition`, `orcha.py` lines 688-695): it
raised, returned `None`, or produced a petition. -/
inductive ConvResult
  | exc
  | nonePetition
  | converted
deriving DecidableEq, Repr

/-- Observable effects of Intake processing one message. -/
structure IntakeResult where
  map : List (Nat × Entry)
  dropped : Bool
  enqueued : Bool
  routedToCancel : Bool
  petState : Option PetitionState
deriving DecidableEq, Repr

/-- The `_petitions` map at the moment the user conversion code runs: the
`Placeholder` has already been inserted under the message id
(`processor.py`, line 366 precedes the `on_message_preconvert` call at
line 371). -/
def intakeMapAtConvert (m : List (Nat × Entry)) (id : Nat) :
    List (Nat × Entry) :=
  assocSet m id placeholderEntry

/-- `Processor._prepare_petition` (`processor.py`, lines 390-402) for a
converted (non-`EmptyPetition`) petition: run the `on_petition_create`
observer hooks, copy the placeholder's state into the freshly converted
petition (which starts in `PENDING`) through the state setter, store the
petition in the map, then either mark it `ENQUEUED` and put it on the internal
queue or, when the copied state is broken, route it to cancellation via
`_do_signal` (which pops the map entry and submits `_finish`). -/
def prepare_petition (m1 : List (Nat × Entry)) (id : Nat) : IntakeResult :=
  let ph := (assocLookup m1 id).getD placeholderEntry
  let st := trySetState .PENDING ph.state
  let m2 := assocSet m1 id { placeholder := false, state := st }
  if st.isInBrokenState then
    { map := assocPop m2 id, dropped := false, enqueued := false,
      routedToCancel := true, petState := some st }
  else
    let st2 := trySetState st .ENQUEUED
    { map := assocSet m2 id { placeholder := false, state := st2 },
      dropped := false, enqueued := true, routedToCancel := false,
      petState := some st2 }

/-- `Processor._process_message` followed by `_prepare_petition`
(`processor.py`, lines 365-402): insert the `Placeholder` under the message id
first; when the conversion raises or returns `None`, pop the entry and drop
the message; otherwise prepare the converted petition. -/
def process_message (m : List (Nat × Entry)) (id : Nat) (conv : ConvResult) :
    IntakeResult :=
  let m1 := intakeMapAtConvert m id
  match conv with
  | .exc =>
    { map := assocPop m1 id, dropped := true, enqueued := false,
      routedToCancel := false, petState := none }
  | .nonePetition =>
    { map := assocPop m1 id, dropped := true, enqueued := false,
      routedToCancel := false, petState := none }
  | .converted => prepare_petition m1 id

/-! ## Derived descriptions of one handling pass

`_handle_petitions` chooses its branch for each petition from the petition
record and the check outcome alone, so the unsuccessful petitions and the ids
submitted to the worker pool allow direct recursive descriptions, proved
equivalent to the loop below. -/

/-- The petitions collected as unsuccessful by one `_handle_petitions` pass:
those before the first `EmptyPetition` whose check raised `ConditionFailed`
while they were still `ENQUEUED`. -/
def unsuccOf (check : Nat → CheckOutcome) : List Pet → List Pet
  | [] => []
  | p :: rest =>
    if p.empty then []
    else
      match check p.id with
      | .condFailed =>
        if p.state.isEnqueuedState then p :: unsuccOf check rest
        else unsuccOf check rest
      | _ => unsuccOf check rest

/-- The ids handed to `_do_start` by one `_handle_petitions` pass: those
before the first `EmptyPetition` whose check returned normally. -/
def startedIdsOf (check : Nat → CheckOutcome) : List Pet → List Nat
  | [] => []
  | p :: rest =>
    if p.empty then []
    else
      match check p.id with
      | .ok _ => p.id :: startedIdsOf check rest
      | _ => startedIdsOf check rest

/-! ### Association-list lemmas -/

theorem assocLookup_set_self {α : Type} (m : List (Nat × α)) (k : Nat) (v : α) :
    assocLookup (assocSet m k v) k = some v := by
  induction m with
  | nil => simp [assocSet, assocLookup]
  | cons kv rest ih =>
    by_cases h : kv.1 = k
    · simp [assocSet, h, assocLookup]
    · simp [assocSet, h, assocLookup, ih]

theorem assocLookup_set_ne {α : Type} (m : List (Nat × α)) (k k' : Nat) (v : α)
    (h : k' ≠ k) : assocLookup (assocSet m k v) k' = assocLookup m k' := by
  have hkk : ¬ k = k' := fun he => h he.symm
  induction m with
  | nil => simp [assocSet, assocLookup, hkk]
  | cons kv rest ih =>
    by_cases hk : kv.1 = k
    · simp [assocSet, hk, assocLookup, hkk]
    · simp [assocSet, hk, assocLookup, ih]

theorem assocLookup_pop_ne {α : Type} (m : List (Nat × α)) (k k' : Nat)
    (h : k' ≠ k) : assocLookup (assocPop m k) k' = assocLookup m k' := by
  induction m with
  | nil => simp [assocPop, assocLookup]
  | cons kv rest ih =>
    by_cases hk : kv.1 = k
    · have hkk : ¬ k = k' := fun he => h he.symm
      simp [assocPop, hk, assocLookup, hkk, ih]
    · simp [assocPop, hk, assocLookup, ih]

theorem assocPop_set_fresh {α : Type} (m : List (Nat × α)) (k : Nat) (v : α)
    (h : assocContains m k = false) : assocPop (assocSet m k v) k = m := by
  induction m with
  | nil => simp [assocSet, assocPop]
  | cons kv rest ih =>
    simp only [assocContains, decide_eq_false_iff_not, List.map_cons,
      List.mem_cons, not_or] at h
    have h1 : ¬ kv.1 = k := fun he => h.1 he.symm
    have h2 : assocContains rest k = false := by
      simp only [assocContains, decide_eq_false_iff_not]
      exact h.2
    simp [assocSet, h1, assocPop, ih h2]

theorem seenGet_pop_ne (m : List (Nat × Nat)) (k k' : Nat) (h : k' ≠ k) :
    seenGet (assocPop m k) k' = seenGet m k' := by
  simp [seenGet, assocLookup_pop_ne m k k' h]

theorem seenGet_set_self (m : List (Nat × Nat)) (k v : Nat) :
    seenGet (assocSet m k v) k = v := by
  simp [seenGet, assocLookup_set_self]

theorem seenGet_set_ne (m : List (Nat × Nat)) (k k' v : Nat) (h : k' ≠ k) :
    seenGet (assocSet m k v) k' = seenGet m k' := by
  simp [seenGet, assocLookup_set_ne m k k' v h]

theorem seenGet_foldl_pop (ids : List Nat) (m : List (Nat × Nat)) (x : Nat)
    (h : x ∉ ids) : seenGet (ids.foldl assocPop m) x = seenGet m x := by
  induction ids generalizing m with
  | nil => rfl
  | cons i rest ih =>
    have hx : x ≠ i := fun he => h (by simp [he])
    have hrest : x ∉ rest := fun he => h (by simp [he])
    simp only [List.foldl_cons]
    rw [ih (assocPop m i) hrest, seenGet_pop_ne m i x hx]

theorem assocLookup_foldl_pop {α : Type} (ids : List Nat) (m : List (Nat × α))
    (x : Nat) (h : x ∉ ids) :
    assocLookup (ids.foldl assocPop m) x = assocLookup m x := by
  induction ids generalizing m with
  | nil => rfl
  | cons i rest ih =>
    have hx : x ≠ i := fun he => h (by simp [he])
    have hrest : x ∉ rest := fun he => h (by simp [he])
    simp only [List.foldl_cons]
    rw [ih (assocPop m i) hrest, assocLookup_pop_ne m i x hx]

/-! ### Set-operation lemmas -/

theorem setAdd_mem_self (l : List Nat) (x : Nat) : x ∈ setAdd l x := by
  by_cases h : x ∈ l <;> simp [setAdd, h]

theorem setAdd_mem_of_mem (l : List Nat) (x y : Nat) (h : y ∈ l) :
    y ∈ setAdd l x := by
  by_cases hx : x ∈ l <;> simp [setAdd, hx, h]

theorem setDiscard_mem (l : List Nat) (x y : Nat) :
    y ∈ setDiscard l x ↔ y ∈ l ∧ y ≠ x := by
  induction l with
  | nil => simp [setDiscard]
  | cons z rest ih =>
    by_cases hz : z = x
    · have hunf : setDiscard (z :: rest) x = setDiscard rest x := by
        simp [setDiscard, hz]
      rw [hunf, ih]
      constructor
      · exact fun hh => ⟨List.mem_cons.mpr (Or.inr hh.1), hh.2⟩
      · rintro ⟨hy, hne⟩
        rcases List.mem_cons.mp hy with hyz | hmem
        · exact absurd (hyz.trans hz) hne
        · exact ⟨hmem, hne⟩
    · have hunf : setDiscard (z :: rest) x = z :: setDiscard rest x := by
        simp [setDiscard, hz]
      rw [hunf]
      constructor
      · intro hy
        rcases List.mem_cons.mp hy with hyz | hmem
        · exact ⟨List.mem_cons.mpr (Or.inl hyz), by rw [hyz]; exact hz⟩
        · have hh := ih.mp hmem
          exact ⟨List.mem_cons.mpr (Or.inr hh.1), hh.2⟩
      · rintro ⟨hy, hne⟩
        rcases List.mem_cons.mp hy with hyz | hmem
        · exact List.mem_cons.mpr (Or.inl hyz)
        · exact List.mem_cons.mpr (Or.inr (ih.mpr ⟨hmem, hne⟩))

/-! ### Field-level description of `do_start` -/

theorem do_start_fields (s : ProcessorState) (p : Pet) (ok : Bool) :
    (do_start s p ok).started = s.started ++ [p.id]
    ∧ (do_start s p ok).seen = assocPop s.seen p.id
    ∧ (do_start s p ok).internalq = s.internalq
    ∧ (do_start s p ok).finalized = s.finalized
    ∧ (do_start s p ok).starving = setDiscard s.starving p.id := by
  by_cases h : (setDiscard s.starving p.id).length = 0 <;>
    simp [do_start, h]

theorem do_start_lookup_ne (s : ProcessorState) (p : Pet) (ok : Bool) (x : Nat)
    (h : x ≠ p.id) :
    assocLookup (do_start s p ok).petitions x = assocLookup s.petitions x := by
  by_cases hl : (setDiscard s.starving p.id).length = 0 <;>
    simp [do_start, hl, assocLookup_set_ne _ _ _ _ h]

theorem do_start_lookAhead (s : ProcessorState) (p : Pet) (ok : Bool) :
    (do_start s p ok).lookAhead
      = (if setDiscard s.starving p.id = [] then s.oldLookAhead else s.lookAhead)
    ∧ (do_start s p ok).oldLookAhead = s.oldLookAhead := by
  by_cases h : (setDiscard s.starving p.id).length = 0
  · have he : setDiscard s.starving p.id = [] := List.length_eq_zero.mp h
    simp [do_start, h, he]
  · have he : ¬ setDiscard s.starving p.id = [] := by
      intro hh
      exact h (by simp [hh])
    simp [do_start, h, he]

/-! ### Structure of one `_handle_petitions` pass -/

theorem handle_petitions_unsucc (check : Nat → CheckOutcome) (start : Nat → Bool) :
    ∀ (l : List Pet) (s : ProcessorState) (acc : List Pet) (last : LastId),
      (handle_petitions check start s l acc last).2.1 = acc ++ unsuccOf check l := by
  intro l
  induction l with
  | nil => intro s acc last; simp [handle_petitions, unsuccOf]
  | cons p rest ih =>
    intro s acc last
    cases hp : p.empty with
    | true => simp [handle_petitions, hp, unsuccOf]
    | false =>
      cases hc : check p.id with
      | ok b => simp [handle_petitions, hp, hc, unsuccOf, ih]
      | condFailed =>
        cases hs : p.state.isEnqueuedState with
        | true => simp [handle_petitions, hp, hc, hs, unsuccOf, ih]
        | false => simp [handle_petitions, hp, hc, hs, unsuccOf, ih]
      | exc => simp [handle_petitions, hp, hc, unsuccOf, ih]

theorem handle_petitions_started (check : Nat → CheckOutcome) (start : Nat → Bool) :
    ∀ (l : List Pet) (s : ProcessorState) (acc : List Pet) (last : LastId),
      (handle_petitions check start s l acc last).1.started
        = s.started ++ startedIdsOf check l := by
  intro l
  induction l with
  | nil => intro s acc last; simp [handle_petitions, startedIdsOf]
  | cons p rest ih =>
    intro s acc last
    cases hp : p.empty with
    | true => simp [handle_petitions, hp, startedIdsOf]
    | false =>
      cases hc : check p.id with
      | ok b =>
        simp [handle_petitions, hp, hc, startedIdsOf, ih,
          (do_start_fields s p (start p.id)).1]
      | condFailed =>
        cases hs : p.state.isEnqueuedState with
        | true => simp [handle_petitions, hp, hc, hs, startedIdsOf, ih]
        | false => simp [handle_petitions, hp, hc, hs, startedIdsOf, ih]
      | exc => simp [handle_petitions, hp, hc, startedIdsOf, ih]

theorem handle_petitions_seen (check : Nat → CheckOutcome) (start : Nat → Bool) :
    ∀ (l : List Pet) (s : ProcessorState) (acc : List Pet) (last : LastId),
      (handle_petitions check start s l acc last).1.seen
        = (startedIdsOf check l).foldl assocPop s.seen := by
  intro l
  induction l with
  | nil => intro s acc last; simp [handle_petitions, startedIdsOf]
  | cons p rest ih =>
    intro s acc last
    cases hp : p.empty with
    | true => simp [handle_petitions, hp, startedIdsOf]
    | false =>
      cases hc : check p.id with
      | ok b =>
        simp [handle_petitions, hp, hc, startedIdsOf, ih,
          (do_start_fields s p (start p.id)).2.1]
      | condFailed =>
        cases hs : p.state.isEnqueuedState with
        | true => simp [handle_petitions, hp, hc, hs, startedIdsOf, ih]
        | false => simp [handle_petitions, hp, hc, hs, startedIdsOf, ih]
      | exc => simp [handle_petitions, hp, hc, startedIdsOf, ih]

theorem handle_petitions_internalq (check : Nat → CheckOutcome) (start : Nat → Bool) :
    ∀ (l : List Pet) (s : ProcessorState) (acc : List Pet) (last : LastId),
      (handle_petitions check start s l acc last).1.internalq = s.internalq
      ∧ (handle_petitions check start s l acc last).1.finalized = s.finalized := by
  intro l
  induction l with
  | nil => intro s acc last; simp [handle_petitions]
  | cons p rest ih =>
    intro s acc last
    cases hp : p.empty with
    | true => simp [handle_petitions, hp]
    | false =>
      cases hc : check p.id with
      | ok b =>
        have hd := do_start_fields s p (start p.id)
        simp [handle_petitions, hp, hc, ih, hd.2.2.1, hd.2.2.2.1]
      | condFailed =>
        cases hs : p.state.isEnqueuedState with
        | true => simp [handle_petitions, hp, hc, hs, ih]
        | false => simp [handle_petitions, hp, hc, hs, ih]
      | exc => simp [handle_petitions, hp, hc, ih]

theorem handle_petitions_lookup_ne (check : Nat → CheckOutcome) (start : Nat → Bool) :
    ∀ (l : List Pet) (s : ProcessorState) (acc : List Pet) (last : LastId) (x : Nat),
      x ∉ l.map Pet.id →
      assocLookup (handle_petitions check start s l acc last).1.petitions x
        = assocLookup s.petitions x := by
  intro l
  induction l with
  | nil => intro s acc last x _; simp [handle_petitions]
  | cons p rest ih =>
    intro s acc last x hx
    have hxp : x ≠ p.id := fun he => hx (by simp [he])
    have hxr : x ∉ rest.map Pet.id := fun he => hx (by simp [he])
    cases hp : p.empty with
    | true => simp [handle_petitions, hp]
    | false =>
      cases hc : check p.id with
      | ok b =>
        have h1 : handle_petitions check start s (p :: rest) acc last
            = handle_petitions check start (do_start s p (start p.id)) rest acc
                (LastId.pet p.id) := by
          simp [handle_petitions, hp, hc]
        rw [h1, ih _ _ _ x hxr, do_start_lookup_ne s p (start p.id) x hxp]
      | condFailed =>
        cases hs : p.state.isEnqueuedState with
        | true =>
          have h1 : handle_petitions check start s (p :: rest) acc last
              = handle_petitions check start s rest (acc ++ [p]) (LastId.pet p.id) := by
            simp [handle_petitions, hp, hc, hs]
          rw [h1, ih _ _ _ x hxr]
        | false =>
          have h1 : handle_petitions check start s (p :: rest) acc last
              = handle_petitions check start s rest acc (LastId.pet p.id) := by
            simp [handle_petitions, hp, hc, hs]
          rw [h1, ih _ _ _ x hxr]
      | exc =>
        have h1 : handle_petitions check start s (p :: rest) acc last
            = handle_petitions check start
                ({ s with petitions := assocSet s.petitions p.id { p with state := trySetState p.state PetitionState.BROKEN } })
                rest acc (LastId.pet p.id) := by
          simp [handle_petitions, hp, hc]
        rw [h1, ih _ _ _ x hxr]
        simp [assocLookup_set_ne _ _ _ _ hxp]

theorem handle_petitions_exc_entry (check : Nat → CheckOutcome) (start : Nat → Bool) :
    ∀ (l : List Pet) (s : ProcessorState) (acc : List Pet) (last : LastId) (p : Pet),
      (∀ q ∈ l, q.empty = false) → (l.map Pet.id).Nodup → p ∈ l →
      check p.id = CheckOutcome.exc →
      assocLookup (handle_petitions check start s l acc last).1.petitions p.id
        = some { p with state := trySetState p.state PetitionState.BROKEN } := by
  intro l
  induction l with
  | nil => intro s acc last p _ _ hp; exact absurd hp (List.not_mem_nil p)
  | cons q rest ih =>
    intro s acc last p hne hnd hp hchk
    have hqe : q.empty = false := hne q (List.mem_cons_self q rest)
    have hnd2 : (q.id :: rest.map Pet.id).Nodup := by simpa using hnd
    have hne' : ∀ x ∈ rest, x.empty = false :=
      fun x hx => hne x (List.mem_cons_of_mem q hx)
    have hnd' : (rest.map Pet.id).Nodup := (List.nodup_cons.mp hnd2).2
    rcases List.mem_cons.mp hp with hpq | hpr
    · subst hpq
      have h1 : handle_petitions check start s (p :: rest) acc last
          = handle_petitions check start
              ({ s with petitions := assocSet s.petitions p.id { p with state := trySetState p.state PetitionState.BROKEN } })
              rest acc (LastId.pet p.id) := by
        simp [handle_petitions, hqe, hchk]
      have hnotin : p.id ∉ rest.map Pet.id := (List.nodup_cons.mp hnd2).1
      rw [h1, handle_petitions_lookup_ne check start rest _ acc _ p.id hnotin]
      simp [assocLookup_set_self]
    · have hqid : q.id ≠ p.id := by
        intro he
        exact (List.nodup_cons.mp hnd2).1 (he ▸ List.mem_map_of_mem Pet.id hpr)
      cases hc : check q.id with
      | ok b =>
        have h1 : handle_petitions check start s (q :: rest) acc last
            = handle_petitions check start (do_start s q (start q.id)) rest acc
                (LastId.pet q.id) := by
          simp [handle_petitions, hqe, hc]
        rw [h1]
        exact ih _ _ _ p hne' hnd' hpr hchk
      | condFailed =>
        cases hs : q.state.isEnqueuedState with
        | true =>
          have h1 : handle_petitions check start s (q :: rest) acc last
              = handle_petitions check start s rest (acc ++ [q]) (LastId.pet q.id) := by
            simp [handle_petitions, hqe, hc, hs]
          rw [h1]
          exact ih _ _ _ p hne' hnd' hpr hchk
        | false =>
          have h1 : handle_petitions check start s (q :: rest) acc last
              = handle_petitions check start s rest acc (LastId.pet q.id) := by
            simp [handle_petitions, hqe, hc, hs]
          rw [h1]
          exact ih _ _ _ p hne' hnd' hpr hchk
      | exc =>
        have h1 : handle_petitions check start s (q :: rest) acc last
            = handle_petitions check start
                ({ s with petitions := assocSet s.petitions q.id { q with state := trySetState q.state PetitionState.BROKEN } })
                rest acc (LastId.pet q.id) := by
          simp [handle_petitions, hqe, hc]
        rw [h1]
        exact ih _ _ _ p hne' hnd' hpr hchk

/-! ### Lemmas about the grab phase -/

theorem grabGo_append :
    ∀ (fuel i : Nat) (q acc : List Pet),
      (grabGo fuel i q acc).1 ++ (grabGo fuel i q acc).2 = acc ++ q := by
  intro fuel
  induction fuel with
  | zero => intro i q acc; simp [grabGo]
  | succ n ih =>
    intro i q acc
    cases q with
    | nil =>
      by_cases h : i > 0
      · simp [grabGo, h]
      · simp [grabGo, h, ih]
    | cons x xs =>
      by_cases h : i > xs.length
      · simp [grabGo, h]
      · simp [grabGo, h, ih]

theorem grab_petitions_append (s : ProcessorState) :
    (grab_petitions s).1 ++ (grab_petitions s).2 = s.internalq := by
  simpa using grabGo_append s.lookAhead 1 s.internalq []

/-! ### Membership lemmas for the derived lists -/

theorem unsuccOf_sublist (check : Nat → CheckOutcome) :
    ∀ l : List Pet, List.Sublist (unsuccOf check l) l := by
  intro l
  induction l with
  | nil => simp [unsuccOf]
  | cons q rest ih =>
    cases hq : q.empty with
    | true => simp [unsuccOf, hq]
    | false =>
      cases hc : check q.id with
      | ok b =>
        simp only [unsuccOf, hq, hc]
        exact List.Sublist.cons q ih
      | condFailed =>
        cases hs : q.state.isEnqueuedState with
        | true =>
          simp only [unsuccOf, hq, hc, hs]
          exact List.Sublist.cons₂ q ih
        | false =>
          simp only [unsuccOf, hq, hc, hs]
          exact List.Sublist.cons q ih
      | exc =>
        simp only [unsuccOf, hq, hc]
        exact List.Sublist.cons q ih

theorem unsuccOf_mem (check : Nat → CheckOutcome) :
    ∀ (l : List Pet) (p : Pet), p ∈ unsuccOf check l →
      p ∈ l ∧ check p.id = CheckOutcome.condFailed
      ∧ p.state.isEnqueuedState = true := by
  intro l
  induction l with
  | nil => intro p hp; simp [unsuccOf] at hp
  | cons q rest ih =>
    intro p hp
    cases hq : q.empty with
    | true => simp [unsuccOf, hq] at hp
    | false =>
      cases hc : check q.id with
      | ok b =>
        simp only [unsuccOf, hq, hc] at hp
        have hh := ih p hp
        exact ⟨List.mem_cons_of_mem q hh.1, hh.2.1, hh.2.2⟩
      | condFailed =>
        cases hs : q.state.isEnqueuedState with
        | true =>
          simp only [unsuccOf, hq, hc, hs] at hp
          rcases List.mem_cons.mp hp with hpq | hpr
          · subst hpq
            exact ⟨List.mem_cons_self p rest, hc, hs⟩
          · have hh := ih p hpr
            exact ⟨List.mem_cons_of_mem q hh.1, hh.2.1, hh.2.2⟩
        | false =>
          simp only [unsuccOf, hq, hc, hs] at hp
          have hh := ih p hp
          exact ⟨List.mem_cons_of_mem q hh.1, hh.2.1, hh.2.2⟩
      | exc =>
        simp only [unsuccOf, hq, hc] at hp
        have hh := ih p hp
        exact ⟨List.mem_cons_of_mem q hh.1, hh.2.1, hh.2.2⟩

theorem mem_unsuccOf (check : Nat → CheckOutcome) :
    ∀ (l : List Pet) (p : Pet), (∀ q ∈ l, q.empty = false) → p ∈ l →
      check p.id = CheckOutcome.condFailed → p.state.isEnqueuedState = true →
      p ∈ unsuccOf check l := by
  intro l
  induction l with
  | nil => intro p _ hp; exact absurd hp (List.not_mem_nil p)
  | cons q rest ih =>
    intro p hne hp hchk hst
    have hqe : q.empty = false := hne q (List.mem_cons_self q rest)
    have hne' : ∀ x ∈ rest, x.empty = false :=
      fun x hx => hne x (List.mem_cons_of_mem q hx)
    rcases List.mem_cons.mp hp with hpq | hpr
    · subst hpq
      simp [unsuccOf, hqe, hchk, hst]
    · cases hc : check q.id with
      | ok b =>
        simp only [unsuccOf, hqe, hc]
        exact ih p hne' hpr hchk hst
      | condFailed =>
        cases hs : q.state.isEnqueuedState with
        | true =>
          simp only [unsuccOf, hqe, hc, hs]
          exact List.mem_cons_of_mem q (ih p hne' hpr hchk hst)
        | false =>
          simp only [unsuccOf, hqe, hc, hs]
          exact ih p hne' hpr hchk hst
      | exc =>
        simp only [unsuccOf, hqe, hc]
        exact ih p hne' hpr hchk hst

theorem startedIdsOf_ok (check : Nat → CheckOutcome) :
    ∀ (l : List Pet) (x : Nat), x ∈ startedIdsOf check l →
      ∃ b, check x = CheckOutcome.ok b := by
  intro l
  induction l with
  | nil => intro x hx; simp [startedIdsOf] at hx
  | cons q rest ih =>
    intro x hx
    cases hq : q.empty with
    | true => simp [startedIdsOf, hq] at hx
    | false =>
      cases hc : check q.id with
      | ok b =>
        simp only [startedIdsOf, hq, hc] at hx
        rcases List.mem_cons.mp hx with hxq | hxr
        · exact ⟨b, hxq ▸ hc⟩
        · exact ih x hxr
      | condFailed =>
        simp only [startedIdsOf, hq, hc] at hx
        exact ih x hx
      | exc =>
        simp only [startedIdsOf, hq, hc] at hx
        exact ih x hx

theorem mem_startedIdsOf (check : Nat → CheckOutcome) :
    ∀ (l : List Pet) (p : Pet) (b : Bool), (∀ q ∈ l, q.empty = false) → p ∈ l →
      check p.id = CheckOutcome.ok b → p.id ∈ startedIdsOf check l := by
  intro l
  induction l with
  | nil => intro p b _ hp; exact absurd hp (List.not_mem_nil p)
  | cons q rest ih =>
    intro p b hne hp hchk
    have hqe : q.empty = false := hne q (List.mem_cons_self q rest)
    have hne' : ∀ x ∈ rest, x.empty = false :=
      fun x hx => hne x (List.mem_cons_of_mem q hx)
    rcases List.mem_cons.mp hp with hpq | hpr
    · subst hpq
      simp [startedIdsOf, hqe, hchk]
    · cases hc : check q.id with
      | ok c =>
        simp only [startedIdsOf, hqe, hc]
        exact List.mem_cons_of_mem q.id (ih p b hne' hpr hchk)
      | condFailed =>
        simp only [startedIdsOf, hqe, hc]
        exact ih p b hne' hpr hchk
      | exc =>
        simp only [startedIdsOf, hqe, hc]
        exact ih p b hne' hpr hchk

/-! ### Lemmas about the re-enqueue phase and the starvation clamp -/

theorem setAdd_mem_iff (l : List Nat) (x y : Nat) :
    y ∈ setAdd l x ↔ y ∈ l ∨ y = x := by
  by_cases h : x ∈ l
  · simp only [setAdd, if_pos h]
    constructor
    · exact fun hh => Or.inl hh
    · rintro (hh | hh)
      · exact hh
      · exact hh ▸ h
  · simp [setAdd, if_neg h]

theorem requeue_one_fields (s : ProcessorState) (p : Pet) :
    (requeue_one s p).started = s.started
    ∧ (requeue_one s p).finalized = s.finalized
    ∧ (requeue_one s p).petitions = s.petitions
    ∧ (requeue_one s p).lookAhead = s.lookAhead
    ∧ (requeue_one s p).oldLookAhead = s.oldLookAhead
    ∧ (requeue_one s p).internalq = s.internalq ++ [p] := by
  by_cases h : seenGet s.seen p.id + 1 ≥ 1000 <;> simp [requeue_one, h]

theorem requeue_foldl_fields :
    ∀ (u : List Pet) (s : ProcessorState),
      (u.foldl requeue_one s).started = s.started
      ∧ (u.foldl requeue_one s).finalized = s.finalized
      ∧ (u.foldl requeue_one s).petitions = s.petitions
      ∧ (u.foldl requeue_one s).lookAhead = s.lookAhead
      ∧ (u.foldl requeue_one s).oldLookAhead = s.oldLookAhead
      ∧ (u.foldl requeue_one s).internalq = s.internalq ++ u := by
  intro u
  induction u with
  | nil => intro s; simp
  | cons p rest ih =>
    intro s
    have h1 := requeue_one_fields s p
    have h2 := ih (requeue_one s p)
    simp only [List.foldl_cons]
    refine ⟨h2.1.trans h1.1, h2.2.1.trans h1.2.1, h2.2.2.1.trans h1.2.2.1,
      h2.2.2.2.1.trans h1.2.2.2.1, h2.2.2.2.2.1.trans h1.2.2.2.2.1, ?_⟩
    rw [h2.2.2.2.2.2, h1.2.2.2.2.2]
    simp

theorem requeue_foldl_starving_mono :
    ∀ (u : List Pet) (s : ProcessorState) (x : Nat),
      x ∈ s.starving → x ∈ (u.foldl requeue_one s).starving := by
  intro u
  induction u with
  | nil => intro s x hx; simpa using hx
  | cons p rest ih =>
    intro s x hx
    simp only [List.foldl_cons]
    refine ih (requeue_one s p) x ?_
    simp only [requeue_one]
    split
    · exact setAdd_mem_of_mem _ _ _ hx
    · exact hx

theorem requeue_foldl_seen_ne :
    ∀ (u : List Pet) (s : ProcessorState) (x : Nat), x ∉ u.map Pet.id →
      seenGet (u.foldl requeue_one s).seen x = seenGet s.seen x := by
  intro u
  induction u with
  | nil => intro s x _; rfl
  | cons p rest ih =>
    intro s x hx
    have hxp : x ≠ p.id := fun he => hx (by simp [he])
    have hxr : x ∉ rest.map Pet.id := fun he => hx (by simp [he])
    simp only [List.foldl_cons]
    rw [ih (requeue_one s p) x hxr]
    by_cases h : seenGet s.seen p.id + 1 ≥ 1000 <;>
      simp [requeue_one, h, seenGet_set_ne _ _ _ _ hxp]

theorem requeue_foldl_spec :
    ∀ (u : List Pet) (s : ProcessorState) (p : Pet),
      (u.map Pet.id).Nodup → p ∈ u →
      seenGet (u.foldl requeue_one s).seen p.id = seenGet s.seen p.id + 1
      ∧ (seenGet s.seen p.id + 1 ≥ 1000 →
          p.id ∈ (u.foldl requeue_one s).starving) := by
  intro u
  induction u with
  | nil => intro s p _ hp; exact absurd hp (List.not_mem_nil p)
  | cons q rest ih =>
    intro s p hnd hp
    have hnd2 : (q.id :: rest.map Pet.id).Nodup := by simpa using hnd
    have hnd' : (rest.map Pet.id).Nodup := (List.nodup_cons.mp hnd2).2
    rcases List.mem_cons.mp hp with hpq | hpr
    · subst hpq
      have hnotin : p.id ∉ rest.map Pet.id := (List.nodup_cons.mp hnd2).1
      simp only [List.foldl_cons]
      constructor
      · rw [requeue_foldl_seen_ne rest _ p.id hnotin]
        by_cases h : seenGet s.seen p.id + 1 ≥ 1000 <;>
          simp [requeue_one, h, seenGet_set_self]
      · intro hbig
        refine requeue_foldl_starving_mono rest _ p.id ?_
        simp only [requeue_one, if_pos hbig]
        exact setAdd_mem_self _ _
    · have hqid : q.id ≠ p.id := by
        intro he
        exact (List.nodup_cons.mp hnd2).1 (he ▸ List.mem_map_of_mem Pet.id hpr)
      have hseen1 : seenGet (requeue_one s q).seen p.id = seenGet s.seen p.id := by
        by_cases h : seenGet s.seen q.id + 1 ≥ 1000 <;>
          simp [requeue_one, h, seenGet_set_ne _ _ _ _ (Ne.symm hqid)]
      have hh := ih (requeue_one s q) p hnd' hpr
      simp only [List.foldl_cons]
      rw [hseen1] at hh
      exact hh

theorem starving_check_fields (s : ProcessorState) :
    (starving_check s).seen = s.seen
    ∧ (starving_check s).starving = s.starving
    ∧ (starving_check s).internalq = s.internalq
    ∧ (starving_check s).started = s.started
    ∧ (starving_check s).finalized = s.finalized
    ∧ (starving_check s).petitions = s.petitions := by
  by_cases h : s.starving.length > 0 <;> simp [starving_check, h]

theorem starving_check_clamp (s : ProcessorState) (h : s.starving ≠ []) :
    (starving_check s).lookAhead = 1
    ∧ (starving_check s).oldLookAhead = s.lookAhead := by
  have hl : s.starving.length > 0 := List.length_pos.mpr h
  simp [starving_check, hl]

/-! ## Claim theorems -/

/-- C1 counterexample: the claim states that every pair outside the transition
table, including pairs with `s = t`, fails with `InvalidStateError`; but the
setter accepts re-assigning the current state. `PENDING` is not a successor of
`PENDING` in `VALID_TRANSITIONS`, yet the assignment succeeds. -/
theorem C1_selfloop_counterexample :
    setState PetitionState.PENDING PetitionState.PENDING
      = Except.ok PetitionState.PENDING
    ∧ PetitionState.PENDING ∉ VALID_TRANSITIONS PetitionState.PENDING := by
  decide

/-- C1 (amended): assigning state `t` to a petition in state `s` succeeds
exactly when `t = s` (a no-op self-assignment) or `t` is a legal successor of
`s` in the transition table; every other pair raises `InvalidStateError` and
leaves the state unchanged. -/
theorem C1_transition_table_amended :
    ∀ s t : PetitionState,
      setState s t =
        (if t = s ∨ t ∈ VALID_TRANSITIONS s then Except.ok t
         else Except.error PyError.invalidState)
      ∧ trySetState s t = (if t = s ∨ t ∈ VALID_TRANSITIONS s then t else s) := by
  decide

/-- C9 counterexample: the ordering is not total on `(priority, arrival-index)`
as the claim states: two distinct petitions with equal priority compare as
neither smaller, greater, nor equal. -/
theorem C9_totality_counterexample :
    Petition.pyLt { priority := 1, id := Sum.inr "a" }
        { priority := 1, id := Sum.inr "b" } = false
    ∧ Petition.pyLt { priority := 1, id := Sum.inr "b" }
        { priority := 1, id := Sum.inr "a" } = false
    ∧ Petition.pyEq { priority := 1, id := Sum.inr "a" }
        { priority := 1, id := Sum.inr "b" } = false := by
  decide

/-- C9 (amended): `a < b` holds iff `a.priority < b.priority` and `a == b`
holds iff the stringified ids coincide; the comparison is total on priorities
alone (for any two petitions, `a < b`, `b < a`, or the priorities are equal)
— there is no arrival-index tiebreak, so trichotomy with respect to
id-equality fails. -/
theorem C9_ordering_amended :
    ∀ a b : Petition,
      (Petition.pyLt a b = true ↔ a.priority < b.priority)
      ∧ (Petition.pyEq a b = true ↔ idStr a.id = idStr b.id)
      ∧ (Petition.pyLt a b = true ∨ Petition.pyLt b a = true
          ∨ a.priority = b.priority) := by
  intro a b
  refine ⟨by simp [Petition.pyLt], by simp [Petition.pyEq], ?_⟩
  rcases lt_trichotomy a.priority b.priority with h | h | h
  · exact Or.inl (by simp [Petition.pyLt, h])
  · exact Or.inr (Or.inr h)
  · exact Or.inr (Or.inl (by simp [Petition.pyLt, h]))

/-- C10: `SignalingPetition.terminate` raises `ValueError` exactly when the
stored pid is `None` or `≤ 0` or the signal delivery fails with `EINVAL`;
returns `False` exactly when the delivery fails with `EPERM`; and returns
`True` in every other case (success, `ESRCH`, any other errno), so cancelling
an already-dead process counts as successful termination. -/
theorem C10_terminate_characterization :
    ∀ (pid : Option Int) (k : KillResult),
      (SignalingPetition.terminate pid k = Except.error PyError.valueError
        ↔ validPid pid = false ∨ k = KillResult.oserror Errno.EINVAL)
      ∧ (SignalingPetition.terminate pid k = Except.ok false
        ↔ validPid pid = true ∧ k = KillResult.oserror Errno.EPERM)
      ∧ (SignalingPetition.terminate pid k = Except.ok true
        ↔ validPid pid = true ∧ k ≠ KillResult.oserror Errno.EPERM
            ∧ k ≠ KillResult.oserror Errno.EINVAL) := by
  intro pid k
  rcases pid with _ | p
  · rcases k with _ | e <;> simp [SignalingPetition.terminate, validPid]
  · by_cases hp : p ≤ 0
    · have hv : validPid (some p) = false := by
        simp [validPid]
        omega
      rcases k with _ | e <;>
        simp [SignalingPetition.terminate, hp, hv]
    · have hv : validPid (some p) = true := by
        simp [validPid]
        omega
      rcases k with _ | e
      · simp [SignalingPetition.terminate, hp, hv]
      · cases e <;> simp [SignalingPetition.terminate, hp, hv]

/-- C8: after shutdown has been initiated, every further submit and every
further cancel raises `ManagerShutdownError` and enqueues nothing; before
shutdown both operations enqueue the request and return without error. -/
theorem C8_shutdown_gate :
    ∀ (s : ServerState) (m n : Nat),
      add_message s m =
        (if s.shutdown then (some PyError.managerShutdown, s)
         else (none, { s with submitQueue := s.submitQueue ++ [m] }))
      ∧ finish_message s n =
        (if s.shutdown then (some PyError.managerShutdown, s)
         else (none, { s with finishQueue := s.finishQueue ++ [n] })) := by
  intro s m n
  cases h : s.shutdown <;> simp [add_message, finish_message, h]

/-- C6 counterexample: the claim states that any petition not in a stopped
state is transitioned to `CANCELLED` with `terminate()` invoked; but a
petition in state `DONE` (not stopped) is rejected with `AttributeError`:
its state is left at `DONE` and `terminate()` is never called. -/
theorem C6_done_counterexample :
    PetitionState.DONE ∉ STOPPED_STATES
    ∧ (finish_task PetitionState.DONE true true).finalState = PetitionState.DONE
    ∧ (finish_task PetitionState.DONE true true).terminateCalled = false
    ∧ (finish_task PetitionState.DONE true true).errorFrames = 2 := by
  decide

/-- C6 (amended): the cancellation task rejects the cancel whenever the
petition is not in a `RUNNING`-ish state (in particular the stopped states
`PENDING`, `FINISHED`, `BROKEN`, but also `CANCELLED` and `DONE`); only for
`ENQUEUED`/`RUNNING` petitions does it transition to `CANCELLED` and invoke
`terminate()`; error frames are written to the reply queue (when one exists)
exactly on rejection or when `terminate()` returned `False`; and in every case
the Finalizer is invoked and, when a reply queue exists, the terminal sentinel
is pushed onto it. -/
theorem C6_cancel_task_amended :
    ∀ (st : PetitionState) (termOk hasQueue : Bool),
      (finish_task st termOk hasQueue).finalizerInvoked = true
      ∧ (finish_task st termOk hasQueue).sentinelPushed = hasQueue
      ∧ (finish_task st termOk hasQueue).terminateCalled = st.isInRunningState
      ∧ (finish_task st termOk hasQueue).finalState
          = (if st ∈ RUNNING_STATES then PetitionState.CANCELLED else st)
      ∧ (finish_task st termOk hasQueue).errorFrames
          = (if hasQueue = true ∧ (st ∉ RUNNING_STATES ∨ termOk = false)
             then 2 else 0) := by
  decide

/-- C7 counterexample: the claim states that on conversion failure the
petitions map is restored to its prior contents; but when the message id was
already present (e.g. a duplicate submission while the first petition waits in
the ready queue), inserting the placeholder overwrites the existing entry and
the failure path then removes the key entirely, so the prior entry is lost. -/
theorem C7_overwrite_counterexample :
    (process_message [(7, { placeholder := false, state := PetitionState.ENQUEUED })]
        7 ConvResult.nonePetition).map = []
    ∧ (process_message [(7, { placeholder := false, state := PetitionState.ENQUEUED })]
        7 ConvResult.nonePetition).dropped = true
    ∧ ([] : List (Nat × Entry))
        ≠ [(7, { placeholder := false, state := PetitionState.ENQUEUED })] := by
  refine ⟨rfl, rfl, ?_⟩
  intro h
  exact List.noConfusion h

/-- C7 (amended): Intake inserts a `Placeholder` under the message id before
any user conversion code runs; if conversion raises or returns `None`, the
entry under the id is removed and the message is dropped — which restores the
map to its prior contents exactly when the id was not already present;
otherwise the placeholder's state is copied into the new petition before it is
enqueued: with the fresh placeholder in state `PENDING` the converted petition
is stored as `ENQUEUED` and put on the ready queue. -/
theorem C7_intake_amended :
    ∀ (m : List (Nat × Entry)) (id : Nat),
      assocLookup (intakeMapAtConvert m id) id = some placeholderEntry
      ∧ (∀ conv, conv ≠ ConvResult.converted →
          (process_message m id conv).dropped = true
          ∧ (process_message m id conv).enqueued = false
          ∧ (process_message m id conv).map
              = assocPop (intakeMapAtConvert m id) id)
      ∧ (assocContains m id = false →
          (process_message m id ConvResult.exc).map = m
          ∧ (process_message m id ConvResult.nonePetition).map = m)
      ∧ process_message m id ConvResult.converted
          = prepare_petition (intakeMapAtConvert m id) id
      ∧ (process_message m id ConvResult.converted).enqueued = true
      ∧ (process_message m id ConvResult.converted).petState
          = some PetitionState.ENQUEUED
      ∧ assocLookup (process_message m id ConvResult.converted).map id
          = some { placeholder := false, state := PetitionState.ENQUEUED } := by
  intro m id
  have hlook : assocLookup (intakeMapAtConvert m id) id = some placeholderEntry :=
    assocLookup_set_self m id placeholderEntry
  refine ⟨hlook, ?_, ?_, rfl, ?_, ?_, ?_⟩
  · intro conv hconv
    cases conv with
    | exc => exact ⟨rfl, rfl, rfl⟩
    | nonePetition => exact ⟨rfl, rfl, rfl⟩
    | converted => exact absurd rfl hconv
  · intro hfresh
    exact ⟨assocPop_set_fresh m id placeholderEntry hfresh,
      assocPop_set_fresh m id placeholderEntry hfresh⟩
  · show (prepare_petition (intakeMapAtConvert m id) id).enqueued = true
    simp [prepare_petition, hlook, placeholderEntry, trySetState, setState,
      PetitionState.isInBrokenState, BROKEN_STATES, VALID_TRANSITIONS]
  · show (prepare_petition (intakeMapAtConvert m id) id).petState
        = some PetitionState.ENQUEUED
    simp [prepare_petition, hlook, placeholderEntry, trySetState, setState,
      PetitionState.isInBrokenState, BROKEN_STATES, VALID_TRANSITIONS]
  · show assocLookup (prepare_petition (intakeMapAtConvert m id) id).map id
        = some { placeholder := false, state := PetitionState.ENQUEUED }
    simp [prepare_petition, hlook, placeholderEntry, trySetState, setState,
      PetitionState.isInBrokenState, BROKEN_STATES, VALID_TRANSITIONS,
      assocLookup_set_self]

/-- C7 witness: the amended theorem applied at an empty map discharges the
freshness hypothesis. -/
theorem C7_intake_witness :
    (process_message ([] : List (Nat × Entry)) 3 ConvResult.exc).map = [] :=
  ((C7_intake_amended [] 3).2.2.1 (by decide)).1

/-- C2 counterexample: the claim states that after the starving set empties
the effective look-ahead equals the configured value `L` again. Start with
`L = 3` and a petition one denial short of starving: round 1 denies it
(starving becomes non-empty, `_old_look_ahead := 3`, look-ahead forced to 1),
round 2 denies it again (`_old_look_ahead` is overwritten with the already
clamped value 1), round 3 accepts it (starving empties and look-ahead is
restored from `_old_look_ahead`). The starving set is empty afterwards but the
effective look-ahead is 1, not 3. -/
theorem C2_restore_counterexample :
    let p : Pet := { id := 1, empty := false, state := PetitionState.ENQUEUED }
    let s0 : ProcessorState :=
      { lookAhead := 3, oldLookAhead := 3, seen := [(1, 999)], starving := [],
        internalq := [p], petitions := [(1, p)], started := [], finalized := [] }
    let deny : Nat → CheckOutcome := fun _ => CheckOutcome.condFailed
    let accept : Nat → CheckOutcome := fun _ => CheckOutcome.ok true
    let st : Nat → Bool := fun _ => true
    let s3 := internal_round (internal_round (internal_round s0 deny st) deny st)
        accept st
    s3.starving = [] ∧ s3.lookAhead = 1 := by
  decide

/-- C2 (amended): when `_do_start` accepts a petition and the starving set
thereby empties, the effective look-ahead is restored to the current value of
`_old_look_ahead` (and left unchanged while the set stays non-empty) — not
necessarily to the configured value, because each round whose starvation check
sees a non-empty starving set overwrites `_old_look_ahead` with the current
(possibly already clamped) look-ahead before forcing it to 1. -/
theorem C2_lookahead_restore_amended :
    ∀ (s : ProcessorState) (p : Pet) (startOk : Bool),
      (setDiscard s.starving p.id = [] →
        (do_start s p startOk).lookAhead = s.oldLookAhead)
      ∧ (setDiscard s.starving p.id ≠ [] →
        (do_start s p startOk).lookAhead = s.lookAhead)
      ∧ (s.starving ≠ [] →
        (starving_check s).oldLookAhead = s.lookAhead
        ∧ (starving_check s).lookAhead = 1) := by
  intro s p startOk
  have hla := do_start_lookAhead s p startOk
  refine ⟨?_, ?_, ?_⟩
  · intro h
    rw [hla.1, if_pos h]
  · intro h
    rw [hla.1, if_neg h]
  · intro h
    exact ⟨(starving_check_clamp s h).2, (starving_check_clamp s h).1⟩

/-- C2 witness: the amended theorem applied at a concrete state whose starving
set empties when petition 2 is accepted. -/
theorem C2_restore_witness :
    (do_start
      { lookAhead := 1, oldLookAhead := 4, seen := [], starving := [2],
        internalq := [], petitions := [], started := [], finalized := [] }
      { id := 2, empty := false, state := PetitionState.ENQUEUED } true).lookAhead
      = 4 :=
  (C2_lookahead_restore_amended
    { lookAhead := 1, oldLookAhead := 4, seen := [], starving := [2],
      internalq := [], petitions := [], started := [], finalized := [] }
    { id := 2, empty := false, state := PetitionState.ENQUEUED } true).1
    (by decide)

/-- C3 counterexample: the claim states that when the admission check raises a
non-`ConditionFailed` exception the petition is set to `BROKEN` and routed to
the Finalizer, with `finish_petition` subsequently invoked and the petition
removed from the petitions map. On a concrete round whose only petition's
check raises such an exception, the petition is marked `BROKEN` but — even
after all worker-pool completion callbacks have run — `finish_petition` has
not been invoked and the entry is still in the petitions map. -/
theorem C3_broken_drop_counterexample :
    let p : Pet := { id := 1, empty := false, state := PetitionState.ENQUEUED }
    let s0 : ProcessorState :=
      { lookAhead := 1, oldLookAhead := 1, seen := [], starving := [],
        internalq := [p], petitions := [(1, p)], started := [], finalized := [] }
    let sf := run_callbacks (internal_round s0 (fun _ => CheckOutcome.exc)
        (fun _ => true))
    assocLookup sf.petitions 1
        = some { id := 1, empty := false, state := PetitionState.BROKEN }
    ∧ sf.finalized = []
    ∧ 1 ∈ sf.petitions.map Prod.fst := by
  decide

/-- C3 (amended): when evaluating a dequeued petition's admission check raises
an exception that is not `ConditionFailed`, the Admission step sets that
petition's state to `BROKEN` and drops it from the round: it is neither
started nor re-enqueued, `finish_petition` is not invoked for it (even after
the worker-pool completion callbacks run), and its `BROKEN` entry remains in
the petitions map. -/
theorem C3_check_exception_amended :
    ∀ (s : ProcessorState) (check : Nat → CheckOutcome) (start : Nat → Bool)
      (p : Pet),
      (s.internalq.map Pet.id).Nodup →
      (∀ q ∈ (grab_petitions s).1, q.empty = false) →
      p ∈ (grab_petitions s).1 →
      check p.id = CheckOutcome.exc →
      p.id ∉ s.started →
      p.id ∉ s.finalized →
      assocLookup (run_callbacks (internal_round s check start)).petitions p.id
          = some { p with state := trySetState p.state PetitionState.BROKEN }
      ∧ p.id ∉ (run_callbacks (internal_round s check start)).finalized
      ∧ p.id ∉ (internal_round s check start).started
      ∧ p.id ∉ ((internal_round s check start).internalq.map Pet.id) := by
  intro s check start p hnodup hne hp hchk hs0 hf0
  have happ : (grab_petitions s).1 ++ (grab_petitions s).2 = s.internalq :=
    grab_petitions_append s
  have hmapnd :
      ((grab_petitions s).1.map Pet.id ++ (grab_petitions s).2.map Pet.id).Nodup := by
    rw [← List.map_append, happ]
    exact hnodup
  have hgrabnd : ((grab_petitions s).1.map Pet.id).Nodup :=
    (List.nodup_append.mp hmapnd).1
  have hdisj :
      List.Disjoint ((grab_petitions s).1.map Pet.id)
        ((grab_petitions s).2.map Pet.id) :=
    (List.nodup_append.mp hmapnd).2.2
  have hround : internal_round s check start
      = starving_check
          ((handle_petitions check start
              ({ s with internalq := (grab_petitions s).2 })
              (grab_petitions s).1 [] LastId.start).2.1.foldl requeue_one
            (handle_petitions check start
              ({ s with internalq := (grab_petitions s).2 })
              (grab_petitions s).1 [] LastId.start).1) := rfl
  have hu : (handle_petitions check start
      ({ s with internalq := (grab_petitions s).2 })
      (grab_petitions s).1 [] LastId.start).2.1
        = unsuccOf check (grab_petitions s).1 := by
    simpa using handle_petitions_unsucc check start (grab_petitions s).1
      ({ s with internalq := (grab_petitions s).2 }) [] LastId.start
  have hst : (handle_petitions check start
      ({ s with internalq := (grab_petitions s).2 })
      (grab_petitions s).1 [] LastId.start).1.started
        = s.started ++ startedIdsOf check (grab_petitions s).1 := by
    simpa using handle_petitions_started check start (grab_petitions s).1
      ({ s with internalq := (grab_petitions s).2 }) [] LastId.start
  have hnot_sid : p.id ∉ startedIdsOf check (grab_petitions s).1 := by
    intro hmem
    rcases startedIdsOf_ok check _ p.id hmem with ⟨b, hb⟩
    rw [hchk] at hb
    exact CheckOutcome.noConfusion hb
  have hstarted_final :
      (internal_round s check start).started
        = s.started ++ startedIdsOf check (grab_petitions s).1 := by
    rw [hround, (starving_check_fields _).2.2.2.1, (requeue_foldl_fields _ _).1,
      hst]
  have hc_started : p.id ∉ (internal_round s check start).started := by
    rw [hstarted_final]
    intro hmem
    rcases List.mem_append.mp hmem with h1 | h2
    · exact hs0 h1
    · exact hnot_sid h2
  have hpet1 : assocLookup (handle_petitions check start
      ({ s with internalq := (grab_petitions s).2 })
      (grab_petitions s).1 [] LastId.start).1.petitions p.id
        = some { p with state := trySetState p.state PetitionState.BROKEN } := by
    have := handle_petitions_exc_entry check start (grab_petitions s).1
      ({ s with internalq := (grab_petitions s).2 }) [] LastId.start p hne hgrabnd
      hp hchk
    simpa using this
  have hpet_round : (internal_round s check start).petitions
      = (handle_petitions check start
          ({ s with internalq := (grab_petitions s).2 })
          (grab_petitions s).1 [] LastId.start).1.petitions := by
    rw [hround, (starving_check_fields _).2.2.2.2.2, (requeue_foldl_fields _ _).2.2.1]
  have hfin_round : (internal_round s check start).finalized = s.finalized := by
    rw [hround, (starving_check_fields _).2.2.2.2.1, (requeue_foldl_fields _ _).2.1]
    simpa using (handle_petitions_internalq check start (grab_petitions s).1
      ({ s with internalq := (grab_petitions s).2 }) [] LastId.start).2
  refine ⟨?_, ?_, hc_started, ?_⟩
  · show assocLookup ((internal_round s check start).started.foldl assocPop
        (internal_round s check start).petitions) p.id = _
    rw [assocLookup_foldl_pop _ _ _ hc_started, hpet_round, hpet1]
  · show p.id ∉ (internal_round s check start).finalized
        ++ (internal_round s check start).started
    intro hmem
    rcases List.mem_append.mp hmem with h1 | h2
    · rw [hfin_round] at h1
      exact hf0 h1
    · exact hc_started h2
  · have hq_round : (internal_round s check start).internalq
        = (grab_petitions s).2 ++ unsuccOf check (grab_petitions s).1 := by
      rw [hround, (starving_check_fields _).2.2.1, (requeue_foldl_fields _ _).2.2.2.2.2,
        hu]
      congr 1
      simpa using (handle_petitions_internalq check start (grab_petitions s).1
        ({ s with internalq := (grab_petitions s).2 }) [] LastId.start).1
    rw [hq_round, List.map_append]
    intro hmem
    rcases List.mem_append.mp hmem with h1 | h2
    · exact hdisj (List.mem_map_of_mem Pet.id hp) h1
    · rcases List.mem_map.mp h2 with ⟨q, hq1, hq2⟩
      have hq3 := unsuccOf_mem check _ q hq1
      rw [hq2, hchk] at hq3
      exact CheckOutcome.noConfusion hq3.2.1

/-- C3 witness: the amended theorem applied to the concrete one-petition round
whose check raises a non-`ConditionFailed` exception. -/
theorem C3_check_exception_witness :
    assocLookup (run_callbacks (internal_round
      { lookAhead := 1, oldLookAhead := 1, seen := [], starving := [],
        internalq := [{ id := 1, empty := false, state := PetitionState.ENQUEUED }],
        petitions := [(1, { id := 1, empty := false, state := PetitionState.ENQUEUED })],
        started := [], finalized := [] }
      (fun _ => CheckOutcome.exc) (fun _ => true))).petitions 1
      = some { id := 1, empty := false, state := PetitionState.BROKEN } :=
  (C3_check_exception_amended
    { lookAhead := 1, oldLookAhead := 1, seen := [], starving := [],
      internalq := [{ id := 1, empty := false, state := PetitionState.ENQUEUED }],
      petitions := [(1, { id := 1, empty := false, state := PetitionState.ENQUEUED })],
      started := [], finalized := [] }
    (fun _ => CheckOutcome.exc) (fun _ => true)
    { id := 1, empty := false, state := PetitionState.ENQUEUED }
    (by decide) (by decide) (by decide) (by decide) (by decide) (by decide)).1

/-- C4: a dequeued petition (other than the `EmptyPetition`) is denied
admission — collected as unsuccessful for this round and not started — if and
only if the admission check raises `ConditionFailed`; in particular a check
that returns a falsy value without raising (`CheckOutcome.ok false`) still
results in the petition being started, since `_handle_petitions` discards the
returned boolean. -/
theorem C4_condition_failed_only_denial :
    ∀ (s : ProcessorState) (check : Nat → CheckOutcome) (start : Nat → Bool)
      (p : Pet),
      (∀ q ∈ (grab_petitions s).1, q.empty = false) →
      p ∈ (grab_petitions s).1 →
      p.state = PetitionState.ENQUEUED →
      p.id ∉ s.started →
      ((p ∈ round_unsuccessful s check start
          ∧ p.id ∉ (internal_round s check start).started)
        ↔ check p.id = CheckOutcome.condFailed)
      ∧ (∀ b, check p.id = CheckOutcome.ok b →
          p.id ∈ (internal_round s check start).started) := by
  intro s check start p hne hp hstate hs0
  have hu : round_unsuccessful s check start
      = unsuccOf check (grab_petitions s).1 := by
    show (handle_petitions check start _ _ [] LastId.start).2.1 = _
    simpa using handle_petitions_unsucc check start (grab_petitions s).1
      ({ s with internalq := (grab_petitions s).2 }) [] LastId.start
  have hstarted_final :
      (internal_round s check start).started
        = s.started ++ startedIdsOf check (grab_petitions s).1 := by
    show (starving_check _).started = _
    rw [(starving_check_fields _).2.2.2.1, (requeue_foldl_fields _ _).1]
    simpa using handle_petitions_started check start (grab_petitions s).1
      ({ s with internalq := (grab_petitions s).2 }) [] LastId.start
  constructor
  · constructor
    · rintro ⟨hmem, _⟩
      rw [hu] at hmem
      exact (unsuccOf_mem check _ p hmem).2.1
    · intro hchk
      have henq : p.state.isEnqueuedState = true := by
        simp [PetitionState.isEnqueuedState, hstate]
      refine ⟨?_, ?_⟩
      · rw [hu]
        exact mem_unsuccOf check _ p hne hp hchk henq
      · rw [hstarted_final]
        intro hmem
        rcases List.mem_append.mp hmem with h1 | h2
        · exact hs0 h1
        · rcases startedIdsOf_ok check _ p.id h2 with ⟨b, hb⟩
          rw [hchk] at hb
          exact CheckOutcome.noConfusion hb
  · intro b hb
    rw [hstarted_final]
    exact List.mem_append.mpr (Or.inr (mem_startedIdsOf check _ p b hne hp hb))

/-- C4 witness: the theorem applied to a concrete round with one petition
whose check returns `False` without raising; the petition is started anyway,
and the denial equivalence is instantiated. -/
theorem C4_condition_failed_witness :
    1 ∈ (internal_round
      { lookAhead := 1, oldLookAhead := 1, seen := [], starving := [],
        internalq := [{ id := 1, empty := false, state := PetitionState.ENQUEUED }],
        petitions := [(1, { id := 1, empty := false, state := PetitionState.ENQUEUED })],
        started := [], finalized := [] }
      (fun _ => CheckOutcome.ok false) (fun _ => true)).started :=
  (C4_condition_failed_only_denial
    { lookAhead := 1, oldLookAhead := 1, seen := [], starving := [],
      internalq := [{ id := 1, empty := false, state := PetitionState.ENQUEUED }],
      petitions := [(1, { id := 1, empty := false, state := PetitionState.ENQUEUED })],
      started := [], finalized := [] }
    (fun _ => CheckOutcome.ok false) (fun _ => true)
    { id := 1, empty := false, state := PetitionState.ENQUEUED }
    (by decide) (by decide) (by decide) (by decide)).2 false (by decide)

/-- C5: every petition re-enqueued as unsuccessful in an admission round has
its seen-count incremented by exactly one; when the count reaches 1000 the
petition's id is in the starving set at the end of the round; and whenever the
starving set is non-empty at the end of a round the effective look-ahead has
been set to 1. -/
theorem C5_starvation_rule :
    ∀ (s : ProcessorState) (check : Nat → CheckOutcome) (start : Nat → Bool)
      (p : Pet),
      (s.internalq.map Pet.id).Nodup →
      p ∈ round_unsuccessful s check start →
      seenGet (internal_round s check start).seen p.id
          = seenGet s.seen p.id + 1
      ∧ (seenGet s.seen p.id + 1 ≥ 1000 →
          p.id ∈ (internal_round s check start).starving)
      ∧ ((internal_round s check start).starving ≠ [] →
          (internal_round s check start).lookAhead = 1) := by
  intro s check start p hnodup hpu
  have happ : (grab_petitions s).1 ++ (grab_petitions s).2 = s.internalq :=
    grab_petitions_append s
  have hmapnd :
      ((grab_petitions s).1.map Pet.id ++ (grab_petitions s).2.map Pet.id).Nodup := by
    rw [← List.map_append, happ]
    exact hnodup
  have hgrabnd : ((grab_petitions s).1.map Pet.id).Nodup :=
    (List.nodup_append.mp hmapnd).1
  have hu : round_unsuccessful s check start
      = unsuccOf check (grab_petitions s).1 := by
    show (handle_petitions check start _ _ [] LastId.start).2.1 = _
    simpa using handle_petitions_unsucc check start (grab_petitions s).1
      ({ s with internalq := (grab_petitions s).2 }) [] LastId.start
  rw [hu] at hpu
  have hchk : check p.id = CheckOutcome.condFailed :=
    (unsuccOf_mem check _ p hpu).2.1
  have hnot_sid : p.id ∉ startedIdsOf check (grab_petitions s).1 := by
    intro hmem
    rcases startedIdsOf_ok check _ p.id hmem with ⟨b, hb⟩
    rw [hchk] at hb
    exact CheckOutcome.noConfusion hb
  have hnd_u : ((unsuccOf check (grab_petitions s).1).map Pet.id).Nodup := by
    have hsub := unsuccOf_sublist check (grab_petitions s).1
    exact (hsub.map Pet.id).nodup hgrabnd
  have hround : internal_round s check start
      = starving_check
          ((handle_petitions check start
              ({ s with internalq := (grab_petitions s).2 })
              (grab_petitions s).1 [] LastId.start).2.1.foldl requeue_one
            (handle_petitions check start
              ({ s with internalq := (grab_petitions s).2 })
              (grab_petitions s).1 [] LastId.start).1) := rfl
  have hu2 : (handle_petitions check start
      ({ s with internalq := (grab_petitions s).2 })
      (grab_petitions s).1 [] LastId.start).2.1
        = unsuccOf check (grab_petitions s).1 := by
    simpa using handle_petitions_unsucc check start (grab_petitions s).1
      ({ s with internalq := (grab_petitions s).2 }) [] LastId.start
  have hseen1 : seenGet (handle_petitions check start
      ({ s with internalq := (grab_petitions s).2 })
      (grab_petitions s).1 [] LastId.start).1.seen p.id
        = seenGet s.seen p.id := by
    have hs := handle_petitions_seen check start (grab_petitions s).1
      ({ s with internalq := (grab_petitions s).2 }) [] LastId.start
    rw [hs]
    simpa using seenGet_foldl_pop (startedIdsOf check (grab_petitions s).1)
      s.seen p.id hnot_sid
  have hmain := requeue_foldl_spec (unsuccOf check (grab_petitions s).1)
    (handle_petitions check start ({ s with internalq := (grab_petitions s).2 })
      (grab_petitions s).1 [] LastId.start).1 p hnd_u hpu
  rw [hseen1] at hmain
  refine ⟨?_, ?_, ?_⟩
  · rw [hround, (starving_check_fields _).1, hu2]
    exact hmain.1
  · intro hbig
    rw [hround, (starving_check_fields _).2.1, hu2]
    exact hmain.2 hbig
  · intro hne
    rw [hround] at hne ⊢
    rw [(starving_check_fields _).2.1] at hne
    exact (starving_check_clamp _ hne).1

/-- C5 witness: the theorem applied to a concrete round whose single petition
is denied for the thousandth time: its seen-count becomes 1000, it enters the
starving set, and the effective look-ahead drops to 1. -/
theorem C5_starvation_witness :
    seenGet (internal_round
      { lookAhead := 2, oldLookAhead := 2, seen := [(1, 999)], starving := [],
        internalq := [{ id := 1, empty := false, state := PetitionState.ENQUEUED }],
        petitions := [(1, { id := 1, empty := false, state := PetitionState.ENQUEUED })],
        started := [], finalized := [] }
      (fun _ => CheckOutcome.condFailed) (fun _ => true)).seen 1 = 1000 :=
  (C5_starvation_rule
    { lookAhead := 2, oldLookAhead := 2, seen := [(1, 999)], starving := [],
      internalq := [{ id := 1, empty := false, state := PetitionState.ENQUEUED }],
      petitions := [(1, { id := 1, empty := false, state := PetitionState.ENQUEUED })],
      started := [], finalized := [] }
    (fun _ => CheckOutcome.condFailed) (fun _ => true)
    { id := 1, empty := false, state := PetitionState.ENQUEUED }
    (by decide) (by decide)).1

end OrchaSpec
